import Mathlib

/-!
Verification of the business-discovery engine (engine.js, v6.1).

The definitions below are a shallow embedding of the entity-resolution,
enrichment and scheduling code of the engine.  Pure string manipulation is
modelled on `List Char` / `String`, the Dice similarity score on `ℚ`
(JavaScript numbers are exact here: all quantities are small integer
fractions; the one degenerate case, `0/0 = NaN` in JavaScript, is modelled
by `0/0 = 0` in `ℚ`, which agrees with the code because every comparison
against a `NaN` is false, exactly as `0 > t` is false for the thresholds
used).  Network effects (page fetches, WHOIS, DNS MX lookups) are modelled
by explicit oracle parameters / outcome lists.
-/

namespace Engine

/-- JavaScript `toLowerCase` restricted to the ASCII range used by the data. -/
def lowerStr (s : String) : String := String.mk (s.toList.map Char.toLower)

/-- Word character in the sense of the JavaScript regex class `\w` after
lowercasing: letters, digits and underscore. -/
def isWordCh (c : Char) : Bool := ('a' ≤ c && c ≤ 'z') || ('0' ≤ c && c ≤ '9') || c = '_'

/-- Letter or digit, the class kept by `normName`'s punctuation filter. -/
def isAlnum (c : Char) : Bool := ('a' ≤ c && c ≤ 'z') || ('0' ≤ c && c ≤ '9')

/-- The legal-suffix words stripped by `normName` (engine.js line 872). -/
def legalSuffixes : List (List Char) :=
  ["llc", "inc", "corp", "ltd", "co", "company", "enterprises", "services",
   "solutions", "group", "associates", "partners", "pllc", "lp", "llp"].map String.toList

/-- Emit a completed run of word characters: a run that is exactly one of the
legal-suffix words is deleted, any other run is kept.  This models one match
of the word-bounded alternation regex of `normName`. -/
def emitRun (buf : List Char) : List Char := if buf ∈ legalSuffixes then [] else buf

/-- Scan of `replace(/\b(llc|inc|...)\b/g, '')`: maximal runs of word
characters equal to a listed word (hence bounded by `\b` on both sides) are
removed, everything else is kept.  `buf` is the word-run read so far. -/
def stripAux (buf : List Char) : List Char → List Char
  | [] => emitRun buf
  | c :: cs =>
    if isWordCh c then stripAux (buf ++ [c]) cs
    else emitRun buf ++ c :: stripAux [] cs

/-- Remove legal-suffix words, word-boundary delimited (engine.js line 872). -/
def stripLegal (l : List Char) : List Char := stripAux [] l

/-- Collapse of `replace(/\s+/g, ' ')`: every maximal run of whitespace
becomes a single space.  The flag records whether the previous character was
whitespace. -/
def collapseAux (prev : Bool) : List Char → List Char
  | [] => []
  | c :: cs =>
    if c.isWhitespace then
      (if prev then collapseAux true cs else ' ' :: collapseAux true cs)
    else c :: collapseAux false cs

/-- JavaScript `trim`: drop leading and trailing whitespace. -/
def trimChars (l : List Char) : List Char :=
  ((l.dropWhile Char.isWhitespace).reverse.dropWhile Char.isWhitespace).reverse

/-- Name normalization `normName` (engine.js line 872): lowercase, strip
legal-suffix words, drop everything but letters, digits and whitespace,
collapse whitespace runs, trim. -/
def normName (n : String) : String :=
  let l1 := n.toList.map Char.toLower
  let l2 := stripLegal l1
  let l3 := l2.filter (fun c => isAlnum c || c.isWhitespace)
  String.mk (trimChars (collapseAux false l3))

/-- Phone normalization `normPhone` (engine.js line 873): keep digits, take
the last 10 (`slice(-10)` keeps everything when fewer than 10 remain). -/
def normPhone (p : String) : String :=
  let ds := p.toList.filter Char.isDigit
  String.mk (ds.drop (ds.length - 10))

/-- Domain normalization `normDomain` (engine.js line 874): strip a leading
`http://` or `https://`, then a leading `www.`, cut at the first `/`
(the regex `/\/.*$/` on the newline-free URLs handled here), lowercase, trim. -/
def normDomain (u : String) : String :=
  let l := u.toList
  let s1 := if "https://".toList.isPrefixOf l then l.drop 8
            else if "http://".toList.isPrefixOf l then l.drop 7 else l
  let s2 := if "www.".toList.isPrefixOf s1 then s1.drop 4 else s1
  let s3 := s2.takeWhile (fun c => c ≠ '/')
  String.mk (trimChars (s3.map Char.toLower))

/-- Character bigrams of a string, in order, as adjacent pairs (the code's
two-character slices `s.slice(i, i+2)`). -/
def bigrams (s : String) : List (Char × Char) := s.toList.zip s.toList.tail

/-- Greedy multiset matching of the bigram lists: each bigram of the first
list consumes the first unused equal bigram of the second, exactly the
used-index set loop of `dice`. -/
def greedyCount : List (Char × Char) → List (Char × Char) → ℕ
  | [], _ => 0
  | x :: xs, ys => if x ∈ ys then greedyCount xs (ys.erase x) + 1 else greedyCount xs ys

/-- Bigram Dice similarity `dice` (engine.js line 875).  For two distinct
single-character strings the code computes `0/0 = NaN`; here it is `0`,
which agrees with the code on every threshold comparison. -/
def dice (a b : String) : ℚ :=
  if a = "" ∨ b = "" then 0
  else if a = b then 1
  else
    let ab := bigrams a
    let bb := bigrams b
    (2 * greedyCount ab bb : ℚ) / (ab.length + bb.length : ℚ)

/-- One sighting of a business (the raw record / entity object of the code:
relevant fields only; `sources` is the contributing-source list attached by
`dedupe`, absent — empty — on a fresh record). -/
structure Biz where
  company_name : String := ""
  phone : String := ""
  address : String := ""
  city : String := ""
  state : String := ""
  website : String := ""
  industry : String := ""
  source : String := ""
  sources : List String := []
deriving DecidableEq, Repr, Inhabited

/-- Entity-resolution match predicate `sameEntity` (engine.js lines 876-886):
equal non-empty website domains, or equal full-10-digit phones, or Dice name
similarity above 0.85, or above 0.7 with equal lowercased cities. -/
def sameEntity (a b : Biz) : Bool :=
  let da := normDomain a.website
  let db := normDomain b.website
  if da ≠ "" ∧ db ≠ "" ∧ da = db then true
  else
    let pa := normPhone a.phone
    let pb := normPhone b.phone
    if pa ≠ "" ∧ pb ≠ "" ∧ 10 ≤ pa.length ∧ pa = pb then true
    else
      let s := dice (normName a.company_name) (normName b.company_name)
      if (0.85 : ℚ) < s then true
      else if (0.7 : ℚ) < s ∧ lowerStr a.city = lowerStr b.city then true
      else false

/-- Field backfill on a match (engine.js line 894-896): empty fields of the
kept entity are filled from the candidate, and the candidate's source is
appended to the entity's source list when new. -/
def backfill (u b : Biz) : Biz :=
  let u1 := { u with
    phone := if u.phone = "" ∧ b.phone ≠ "" then b.phone else u.phone
    address := if u.address = "" ∧ b.address ≠ "" then b.address else u.address
    city := if u.city = "" ∧ b.city ≠ "" then b.city else u.city
    website := if u.website = "" ∧ b.website ≠ "" then b.website else u.website
    industry := if u.industry = "" ∧ b.industry ≠ "" then b.industry else u.industry }
  let ss := if u1.sources = [] then [u1.source] else u1.sources
  { u1 with sources := if b.source ∈ ss then ss else ss ++ [b.source] }

/-- Merge a candidate into the first matching entity of the accumulator, if
any (the inner loop of `dedupe`). -/
def insertRec : List Biz → Biz → Option (List Biz)
  | [], _ => none
  | u :: rest, b =>
    if sameEntity u b then some (backfill u b :: rest)
    else (insertRec rest b).map (u :: ·)

/-- One step of `dedupe`: merge into the first match, otherwise append as a
new entity carrying a singleton source list (engine.js line 900). -/
def dedupeStep (uniq : List Biz) (b : Biz) : List Biz :=
  match insertRec uniq b with
  | some merged => merged
  | none => uniq ++ [{ b with sources := [b.source] }]

/-- Streaming dedup `dedupe` (engine.js lines 887-905). -/
def dedupe (list : List Biz) : List Biz := list.foldl dedupeStep []

/-- Scheduler dedup key (engine.js lines 264-269): normalized name, city and
state joined with pipes. -/
def dedupKey (biz : Biz) : String :=
  let n := String.mk ((biz.company_name.toList.map Char.toLower).filter isAlnum)
  let c := String.mk ((biz.city.toList.map Char.toLower).filter (fun ch => 'a' ≤ ch && ch ≤ 'z'))
  let s := String.mk ((biz.state.toList.map Char.toLower).filter (fun ch => 'a' ≤ ch && ch ≤ 'z'))
  n ++ "|" ++ c ++ "|" ++ s

/-! ## Contacts, email helpers -/

/-- A contact row (engine.js contact objects). -/
structure Contact where
  email : String := ""
  first_name : String := ""
  last_name : String := ""
  title : String := ""
  phone : String := ""
  confidence : String := ""
  source_page : String := ""
deriving DecidableEq, Repr, Inhabited

/-- A name extracted without an email (candidate for pattern inference). -/
structure Person where
  first_name : String := ""
  last_name : String := ""
  title : String := ""
  phone : String := ""
  source_page : String := ""
deriving DecidableEq, Repr, Inhabited

/-- JavaScript `split` on a single-character separator. -/
def splitOnCh (sep : Char) : List Char → List (List Char)
  | [] => [[]]
  | c :: cs =>
    if c = sep then [] :: splitOnCh sep cs
    else
      match splitOnCh sep cs with
      | [] => [[c]]
      | t :: ts => (c :: t) :: ts

/-- Substring test, JavaScript `String.prototype.includes`. -/
def containsSeg (needle hay : List Char) : Bool := hay.tails.any needle.isPrefixOf

/-- The local-excluded substrings of `SKIP_EMAILS` (engine.js line 385). -/
def skipEmails : List (List Char) :=
  ["noreply", "no-reply", "donotreply", "admin@", "webmaster@", "postmaster@",
   "hostmaster@", "abuse@", "privacy@", "ssl@", "info@example", "test@", "example@",
   "placeholder@", "dummy@", "fake@", "sentry", "wordpress", "wixpress", "squarespace",
   "godaddy", "cloudflare", "w3.org", "schema.org", "googleapis", "jquery",
   "bootstrapcdn", "cookie", "email@email", "support@wix", "sample@", "demo@",
   "user@", "username@", "@sentry", "change@me", "your@email", "name@company",
   ".png", ".jpg", ".gif", ".css", ".js", ".svg", ".woff"].map String.toList

/-- Email validity filter `validEmail` (engine.js lines 387-396): length bounds,
skip-list substrings, exactly one `@`, and a sane dotted domain. -/
def validEmail (e : String) : Bool :=
  if e = "" ∨ 80 < e.length ∨ e.length < 6 then false
  else
    let l := e.toList.map Char.toLower
    if skipEmails.any (fun s => containsSeg s l) then false
    else
      match splitOnCh '@' l with
      | [_, domain] =>
        if ¬ domain.contains '.' ∨ ['.'].isSuffixOf domain ∨ ['.'].isPrefixOf domain
        then false else true
      | _ => false

/-- Whitespace-run tokenizer: `full.trim().split(/\s+/)` restricted to the
tokens (a trimmed string yields no empty tokens). -/
def wsTokensAux (cur : List Char) : List Char → List (List Char)
  | [] => if cur = [] then [] else [cur]
  | c :: cs =>
    if c.isWhitespace then
      (if cur = [] then wsTokensAux [] cs else cur :: wsTokensAux [] cs)
    else wsTokensAux (cur ++ [c]) cs

/-- First word of a full name, `firstName` (engine.js line 397). -/
def firstNameStr (full : String) : String :=
  if full = "" then "" else String.mk ((wsTokensAux [] full.toList).headD [])

/-- Remaining words of a full name joined by spaces, `lastName`
(engine.js line 398). -/
def lastNameStr (full : String) : String :=
  let p := wsTokensAux [] full.toList
  if 1 < p.length then String.mk (List.intercalate [' '] (p.drop 1)) else ""

/-! ## Email pattern inference (engine.js lines 985-1010) -/

/-- Enumeration order of the candidate patterns, the insertion order of the
`patterns` object of `detectEmailPattern`. -/
def patternOrder : List String :=
  ["first", "first.last", "firstlast", "flast", "first_last", "firstl", "last"]

/-- The vote a single contact casts: the first candidate pattern, in
enumeration order, whose rendering equals the email's local part (the
`else if` chain of `detectEmailPattern`); `none` when the contact lacks an
email or a name or matches nothing. -/
def chainVote (c : Contact) : Option String :=
  if c.email = "" ∨ c.first_name = "" ∨ c.last_name = "" then none
  else
    let lpart := lowerStr (String.mk ((splitOnCh '@' c.email.toList).headD []))
    let f := lowerStr c.first_name
    let l := lowerStr c.last_name
    if f = "" ∨ l = "" then none
    else if lpart = f then some "first"
    else if lpart = f ++ "." ++ l then some "first.last"
    else if lpart = f ++ l then some "firstlast"
    else if lpart = f.take 1 ++ l then some "flast"
    else if lpart = f ++ "_" ++ l then some "first_last"
    else if lpart = f ++ l.take 1 then some "firstl"
    else if lpart = l then some "last"
    else none

/-- Vote count of one pattern over a contact list. -/
def votes (cs : List Contact) (p : String) : ℕ := (cs.filterMap chainVote).count p

/-- The `count > bestCount` update of the selection loop of
`detectEmailPattern` (engine.js lines 1000-1001). -/
def selUpd (acc : Option String × ℕ) (pc : String × ℕ) : Option String × ℕ :=
  if acc.2 < pc.2 then (some pc.1, pc.2) else acc

/-- The selection loop over the candidate patterns in enumeration order. -/
def selectBest (l : List (String × ℕ)) : Option String × ℕ := l.foldl selUpd (none, 0)

/-- Dominant-pattern detection `detectEmailPattern` (engine.js lines 985-1003):
vote, then pick the pattern with the strictly highest running count, requiring
at least one vote. -/
def detectEmailPattern (cs : List Contact) : Option String :=
  let r := selectBest (patternOrder.map (fun p => (p, votes cs p)))
  if 1 ≤ r.2 then r.1 else none

/-- Keep lowercase letters only, the `replace(/[^a-z]/g, '')` of
`generateEmail`. -/
def lettersOnly (s : String) : String :=
  String.mk ((s.toList.map Char.toLower).filter (fun c => 'a' ≤ c && c ≤ 'z'))

/-- Email synthesis `generateEmail` (engine.js lines 1005-1010). -/
def generateEmail (pat fname lname domain : String) : Option String :=
  let f := lettersOnly fname
  let l := lettersOnly lname
  if f = "" ∨ l = "" then none
  else if pat = "first" then some (f ++ "@" ++ domain)
  else if pat = "first.last" then some (f ++ "." ++ l ++ "@" ++ domain)
  else if pat = "firstlast" then some (f ++ l ++ "@" ++ domain)
  else if pat = "flast" then some (f.take 1 ++ l ++ "@" ++ domain)
  else if pat = "first_last" then some (f ++ "_" ++ l ++ "@" ++ domain)
  else if pat = "firstl" then some (f ++ l.take 1 ++ "@" ++ domain)
  else if pat = "last" then some (l ++ "@" ++ domain)
  else none

/-! ## MX verification (engine.js lines 1012-1018 and 1113-1125) -/

/-- MX lookup `verifyEmailMx` against a DNS oracle `mx` mapping a domain to
whether it has MX records (the per-domain cache memoizes the oracle and is
semantically transparent).  A missing or empty domain part is not
deliverable. -/
def verifyEmailMx (mx : String → Bool) (email : String) : Bool :=
  match (splitOnCh '@' email.toList).get? 1 with
  | none => false
  | some d => if d = [] then false else mx (String.mk d)

/-- The confidence rewrite of the MX-verification loop of `enrichBusiness`
(engine.js lines 1115-1125). -/
def mxTransition (valid : Bool) (conf : String) : String :=
  if valid then
    (if conf = "found" then "verified"
     else if conf = "inferred" then "inferred_mx_ok" else conf)
  else (if conf = "inferred" then "inferred_no_mx" else "no_mx")

/-- The MX-verification step: the loop `for (const c of allContacts)` runs the
transition on every contact of the list. -/
def mxStep (mx : String → Bool) (cs : List Contact) : List Contact :=
  cs.map (fun c => { c with confidence := mxTransition (verifyEmailMx mx c.email) c.confidence })

/-! ## Contact assembly of `enrichBusiness` (engine.js lines 1041-1135) -/

/-- State of the contact accumulator: the `allEmails` seen-set (as a list)
and the `allContacts` list. -/
abbrev CState := List String × List Contact

/-- Guarded insertion: add a contact keyed by `key` unless the key is already
in the seen-set, adding the key alongside (the shared
`if (!allEmails.has(...)) { allEmails.add(...); allContacts.push(...) }`
shape of every insertion site of `enrichBusiness`). -/
def addKeyed (st : CState) (key : String) (c : Contact) : CState :=
  if key ∈ st.1 then st else (st.1 ++ [key], st.2 ++ [c])

/-- Add one extracted page's contacts (engine.js lines 1054 and 1066). -/
def addPage (st : CState) (cs : List Contact) : CState :=
  cs.foldl (fun st c => addKeyed st c.email c) st

/-- Extraction result of one fetched page. -/
structure PageExtract where
  contacts : List Contact := []
  namesNoEmail : List Person := []
deriving Repr, Inhabited

/-- The subpage loop (engine.js lines 1061-1071): failed fetches are skipped,
contacts merged via the shared seen-set, names accumulated, with the early
break once five or more contacts carry a first name. -/
def subLoop : List (Option PageExtract) → CState → List Person → CState × List Person
  | [], st, names => (st, names)
  | none :: rest, st, names => subLoop rest st names
  | some pr :: rest, st, names =>
    let st' := addPage st pr.contacts
    let names' := names ++ pr.namesNoEmail
    if 5 ≤ (st'.2.filter (fun c => c.first_name ≠ "")).length then (st', names')
    else subLoop rest st' names'

/-- WHOIS registrant data used by enrichment. -/
structure Registrant where
  name : String := ""
  email : String := ""
  phone : String := ""
deriving Repr, Inhabited

/-- The WHOIS contact insertion (engine.js lines 1080-1088): the registrant
email, lowercased, is added with confidence `whois` when valid and unseen. -/
def whoisAdd (reg? : Option Registrant) (st : CState) : CState :=
  match reg? with
  | none => st
  | some reg =>
    if reg.email ≠ "" ∧ validEmail reg.email = true ∧ lowerStr reg.email ∉ st.1 then
      (st.1 ++ [lowerStr reg.email],
       st.2 ++ [{ email := lowerStr reg.email, first_name := firstNameStr reg.name,
                  last_name := lastNameStr reg.name, title := "Owner (WHOIS)",
                  phone := reg.phone, confidence := "whois", source_page := "WHOIS/RDAP" }])
    else st

/-- The pattern-inference insertion loop (engine.js lines 1098-1111): when a
pattern was detected and names without email exist, synthesize an email per
name and add it with confidence `inferred` unless it collides with an
already-known email. -/
def inferContacts (pat? : Option String) (names : List Person) (domain : String)
    (st : CState) : CState :=
  match pat? with
  | none => st
  | some pat =>
    if names.length ≠ 0 then
      names.foldl (fun st person =>
        match generateEmail pat person.first_name person.last_name domain with
        | none => st
        | some e =>
          addKeyed st e { email := e, first_name := person.first_name,
                          last_name := person.last_name, title := person.title,
                          phone := person.phone, confidence := "inferred",
                          source_page := person.source_page }) st
    else st

/-- Contact assembly of `enrichBusiness`: homepage extraction, subpage loop,
WHOIS insertion, pattern detection over all collected contacts, inference,
then MX verification over the whole list. -/
def enrichContacts (home : PageExtract) (subs : List (Option PageExtract))
    (reg? : Option Registrant) (domain : String) (mx : String → Bool) : List Contact :=
  let st0 := addPage ([], []) home.contacts
  let names0 := home.namesNoEmail
  let r1 := subLoop subs st0 names0
  let st2 := whoisAdd reg? r1.1
  let pat := detectEmailPattern st2.2
  let st3 := inferContacts pat r1.2 domain st2
  mxStep mx st3.2

/-! ## Scheduler: global dedup accept loop and checkpoint resume
(engine.js lines 1388-1403 and 1459-1491) -/

/-- One candidate record through the global dedup filter (engine.js lines
1476-1487): a record whose `dedupKey` is in the seen-set is dropped;
otherwise the key is added and the record is appended to the entity list
as-is — no similarity-based resolution is invoked here. -/
def acceptStep (st : List Biz × List String) (b : Biz) : List Biz × List String :=
  let key := dedupKey b
  if key ∈ st.2 then st else (st.1 ++ [b], st.2 ++ [key])

/-- Processing a stream of discovered records through the accept loop. -/
def processRecords (st : List Biz × List String) (l : List Biz) : List Biz × List String :=
  l.foldl acceptStep st

/-- Resume logic (engine.js lines 1398-1401): the global seen-set is rebuilt
with one `dedupKey` per checkpointed entity. -/
def resumeSeen (saved : List Biz) : List String := saved.map dedupKey

/-! ## Chunk output ordering (engine.js lines 1546-1600) -/

/-- An event observed by the output sink during one category chunk's step 3:
a row push (tagged by whether the row came out of enrichment) or a flush. -/
inductive SinkEvent where
  | pushRow (b : Biz) (enriched : Bool)
  | flushTabs
deriving DecidableEq, Repr

/-- The sink-event trace of step 3 of the `run` loop for one chunk: the
no-website rows are pushed and flushed first (lines 1554-1561), then each
website-bearing record is enriched and its row pushed in discovery order
(lines 1564-1596), then the remaining rows are flushed (line 1599). -/
def chunkTrace (enrich : Biz → Biz) (chunk : List Biz) : List SinkEvent :=
  let noSites := chunk.filter (fun b => b.website = "")
  let withSites := chunk.filter (fun b => b.website ≠ "")
  (noSites.map (fun b => SinkEvent.pushRow b false))
    ++ (if noSites.length ≠ 0 then [SinkEvent.flushTabs] else [])
    ++ (withSites.map (fun b => SinkEvent.pushRow (enrich b) true))
    ++ [SinkEvent.flushTabs]

/-! ## Rate gate / circuit breaker (engine.js lines 693-720 and 722-743) -/

/-- Outcome of a Yelp search-page fetch, when one is made: a null or
too-short response, a JavaScript challenge page, or a parsed page yielding
`n` business records. -/
inductive YelpFetch where
  | blockedShort
  | jsChallenge
  | results (n : ℕ)
deriving DecidableEq, Repr

/-- One `discoverYelpSingle` call (engine.js lines 694-720): with 5 or more
consecutive failures the unit is skipped before any network activity;
otherwise the fetch happens and a page parsing to at least one business
resets the counter while anything else increments it.  Result: new counter,
whether a network call was made, number of businesses returned. -/
def yelpSingle (fails : ℕ) (o : YelpFetch) : ℕ × Bool × ℕ :=
  if 5 ≤ fails then (fails, false, 0)
  else
    match o with
    | .blockedShort => (fails + 1, true, 0)
    | .jsChallenge => (fails + 1, true, 0)
    | .results n => if 0 < n then (0, true, n) else (fails + 1, true, 0)

/-- A sequence of Yelp work units, threading the consecutive-failure
counter; per unit: whether the network was hit and how many records came
back. -/
def yelpRun (fails : ℕ) : List YelpFetch → List (Bool × ℕ)
  | [] => []
  | o :: os =>
    let r := yelpSingle fails o
    (r.2.1, r.2.2) :: yelpRun r.1 os

/-- Outcome of a BBB search-page fetch. -/
inductive BBBFetch where
  | failed
  | results (n : ℕ)
deriving DecidableEq, Repr

/-- One `discoverBBBSingle` call (engine.js lines 722-743): the function
keeps no failure state and begins with `navigateAndWait` unconditionally, so
the network flag is always true. -/
def bbbSingle (o : BBBFetch) : Bool × ℕ :=
  (true, match o with | .failed => 0 | .results n => n)

/-- A sequence of BBB work units: stateless, every unit hits the network. -/
def bbbRun (os : List BBBFetch) : List (Bool × ℕ) := os.map bbbSingle

/-! ## Specification-side definitions (used to state refinement claims;
written from the specification's words, to be compared with the code's
definitions above) -/

/-- Specification reading of pattern selection: the highest vote count. -/
def maxCount (l : List (String × ℕ)) : ℕ := l.foldr (fun pc n => max pc.2 n) 0

/-- Specification reading of pattern selection: the first pattern in
enumeration order attaining the highest vote count, requiring at least one
vote. -/
def firstMaxPattern (l : List (String × ℕ)) : Option String :=
  if maxCount l = 0 then none
  else (l.find? (fun pc => pc.2 = maxCount l)).map Prod.fst

/-- Specification reading of the accept loop: keep the first record of each
dedup key, given an initial seen-set. -/
def firstByKey (seen : List String) : List Biz → List Biz
  | [] => []
  | b :: rest =>
    if dedupKey b ∈ seen then firstByKey seen rest
    else b :: firstByKey (seen ++ [dedupKey b]) rest

/-- Invariant of the contact accumulator: the collected contacts carry
pairwise-distinct emails and every collected email is in the seen-set. -/
def goodState (st : CState) : Prop :=
  (st.2.map Contact.email).Nodup ∧ ∀ c ∈ st.2, c.email ∈ st.1

/-! ## Concrete instances used by witnesses and counterexamples -/

/-- A record whose normalized name has exactly 20 bigrams, 17 of which are
shared with `exC1b`'s, giving a Dice score of exactly 0.85. -/
def exC1a : Biz := { company_name := "abcdefghijklmnopqrstu", city := "phoenix" }

/-- The partner record of `exC1a`: same 18-character prefix, different
3-character tail. -/
def exC1b : Biz := { company_name := "abcdefghijklmnopqrxyz", city := "tucson" }

/-- A record with a 7-digit phone (normalizes to 7 digits, below the
10-digit requirement of the matcher). -/
def exC2a : Biz := { company_name := "alphaone", phone := "555-1234", city := "mesa" }

/-- A record sharing `exC2a`'s normalized phone but nothing else. -/
def exC2b : Biz := { company_name := "zzzqqq", phone := "5551234", city := "reno" }

/-- A record with a full 10-digit phone. -/
def exC2c : Biz := { company_name := "alphaone", phone := "5551112222", city := "mesa" }

/-- A record sharing `exC2c`'s normalized phone but nothing else. -/
def exC2d : Biz := { company_name := "zzzqqq", phone := "(555) 111-2222", city := "reno" }

/-- A record with empty name, phone and website. -/
def exC3empty : Biz := { address := "12 Main St", city := "mesa", state := "Arizona" }

/-- A record with a non-empty normalized name. -/
def exC3named : Biz := { company_name := "sunrise bakery", city := "mesa" }

/-- A contact of John Smith at john.smith@x.com. -/
def johnC : Contact :=
  { email := "john.smith@x.com", first_name := "John", last_name := "Smith",
    confidence := "found" }

/-- A contact of Jane Doe at jane.doe@x.com. -/
def janeC : Contact :=
  { email := "jane.doe@x.com", first_name := "Jane", last_name := "Doe",
    confidence := "found" }

/-- An extracted name, Sarah Jones, lacking an email. -/
def sarahP : Person := { first_name := "Sarah", last_name := "Jones" }

/-- The contact synthesized for Sarah Jones under pattern `first.last` on
domain x.com. -/
def sarahInferred : Contact :=
  { email := "sarah.jones@x.com", first_name := "Sarah", last_name := "Jones",
    confidence := "inferred" }

/-- A no-website record. -/
def exN1 : Biz := { company_name := "nosite one", city := "mesa" }

/-- A no-website record. -/
def exN2 : Biz := { company_name := "nosite two", city := "mesa" }

/-- A no-website record. -/
def exN3 : Biz := { company_name := "nosite three", city := "mesa" }

/-- A website-bearing record. -/
def exW1 : Biz := { company_name := "site one", city := "mesa", website := "one.com" }

/-- A website-bearing record. -/
def exW2 : Biz := { company_name := "site two", city := "mesa", website := "two.com" }

/-- A record accepted by the scheduler. -/
def exC7a : Biz := { company_name := "desert plumbing", phone := "6021234567", city := "mesa", state := "Arizona" }

/-- A record with a different dedup key but the same 10-digit phone as
`exC7a`. -/
def exC7b : Biz := { company_name := "dp services", phone := "(602) 123-4567", city := "tempe", state := "Arizona" }

end Engine

namespace Engine

/-! ## Helper lemmas -/

theorem ten_le_length_ne_empty (s : String) (h : 10 ≤ s.length) : s ≠ "" := by
  intro he
  subst he
  simp at h

theorem sameEntity_sources (a b : Biz) (ss : List String) :
    sameEntity { a with sources := ss } b = sameEntity a b := rfl

theorem dice_eval (a b : String) (m la lb : ℕ) (h1 : a ≠ "") (h2 : b ≠ "")
    (h3 : a ≠ b) (hm : greedyCount (bigrams a) (bigrams b) = m)
    (hla : (bigrams a).length = la) (hlb : (bigrams b).length = lb) :
    dice a b = (2 * m : ℚ) / (la + lb) := by
  simp only [dice, hm, hla, hlb]
  rw [if_neg (by tauto), if_neg h3]

theorem dice_empty_left (b : String) : dice "" b = 0 := by
  simp [dice]

theorem dice_self (a : String) (h : a ≠ "") : dice a a = 1 := by
  simp [dice, h]

theorem sameEntity_false_of (a b : Biz)
    (hd : ¬(normDomain a.website ≠ "" ∧ normDomain b.website ≠ "" ∧
            normDomain a.website = normDomain b.website))
    (hp : ¬(normPhone a.phone ≠ "" ∧ normPhone b.phone ≠ "" ∧
            10 ≤ (normPhone a.phone).length ∧ normPhone a.phone = normPhone b.phone))
    (h85 : ¬((0.85 : ℚ) < dice (normName a.company_name) (normName b.company_name)))
    (h70 : ¬((0.7 : ℚ) < dice (normName a.company_name) (normName b.company_name) ∧
             lowerStr a.city = lowerStr b.city)) :
    sameEntity a b = false := by
  simp only [sameEntity]
  rw [if_neg hd, if_neg hp, if_neg h85, if_neg h70]

theorem sameEntity_true_of_phone (a b : Biz)
    (hp : normPhone a.phone ≠ "" ∧ normPhone b.phone ≠ "" ∧
          10 ≤ (normPhone a.phone).length ∧ normPhone a.phone = normPhone b.phone) :
    sameEntity a b = true := by
  simp only [sameEntity]
  split_ifs <;> rfl

theorem sameEntity_true_of_domain (a b : Biz)
    (hd : normDomain a.website ≠ "" ∧ normDomain b.website ≠ "" ∧
          normDomain a.website = normDomain b.website) :
    sameEntity a b = true := by
  simp only [sameEntity]
  rw [if_pos hd]

theorem sameEntity_true_of_name (a b : Biz)
    (h : (0.85 : ℚ) < dice (normName a.company_name) (normName b.company_name)) :
    sameEntity a b = true := by
  simp only [sameEntity]
  split_ifs <;> rfl

theorem dedupe_pair_merged (a b : Biz)
    (h : sameEntity { a with sources := [a.source] } b = true) :
    dedupe [a, b] = [backfill { a with sources := [a.source] } b] := by
  simp [dedupe, dedupeStep, insertRec, h]

theorem dedupe_pair_split (a b : Biz)
    (h : sameEntity { a with sources := [a.source] } b = false) :
    dedupe [a, b] = [{ a with sources := [a.source] }, { b with sources := [b.source] }] := by
  simp [dedupe, dedupeStep, insertRec, h]

end Engine

namespace Engine

/-! ## Claim C1 — Dice similarity threshold -/

theorem dice_exC1 :
    dice (normName exC1a.company_name) (normName exC1b.company_name) = 0.85 := by
  have h1 : normName exC1a.company_name = "abcdefghijklmnopqrstu" := by decide
  have h2 : normName exC1b.company_name = "abcdefghijklmnopqrxyz" := by decide
  rw [h1, h2,
    dice_eval _ _ 17 20 20 (by decide) (by decide) (by decide) (by decide) (by decide) (by decide)]
  norm_num

/-- C1, counterexample: the two concrete records have normalized-name Dice
similarity exactly 0.85 and share no other signal (no website domains, no
phones, different lowercased cities), yet `sameEntity` classifies them as
different — the claim states they must be classified the same. -/
theorem c1_counterexample :
    dice (normName exC1a.company_name) (normName exC1b.company_name) = 0.85 ∧
    normDomain exC1a.website = "" ∧ normDomain exC1b.website = "" ∧
    normPhone exC1a.phone = "" ∧ normPhone exC1b.phone = "" ∧
    lowerStr exC1a.city ≠ lowerStr exC1b.city ∧
    sameEntity exC1a exC1b = false := by
  refine ⟨dice_exC1, by decide, by decide, by decide, by decide, by decide, ?_⟩
  apply sameEntity_false_of
  · decide
  · decide
  · rw [dice_exC1]
    norm_num
  · rw [dice_exC1]
    rintro ⟨-, hc⟩
    exact absurd hc (by decide)

/-- C1 (amended): absent any other signal (no matching non-empty website
domains, no matching full-10-digit phones, different lowercased localities),
the match predicate `sameEntity` classifies two records as the same entity
exactly when the bigram Dice similarity of their normalized names is
strictly greater than 0.85; hence at similarity exactly 0.85 — and a
fortiori at 0.849 — it classifies them as different. -/
theorem c1_dice_threshold_strict (a b : Biz)
    (hd : ¬(normDomain a.website ≠ "" ∧ normDomain b.website ≠ "" ∧
            normDomain a.website = normDomain b.website))
    (hp : ¬(normPhone a.phone ≠ "" ∧ normPhone b.phone ≠ "" ∧
            10 ≤ (normPhone a.phone).length ∧ normPhone a.phone = normPhone b.phone))
    (hc : lowerStr a.city ≠ lowerStr b.city) :
    sameEntity a b
      = decide ((0.85 : ℚ) < dice (normName a.company_name) (normName b.company_name)) := by
  simp only [sameEntity]
  rw [if_neg hd, if_neg hp]
  by_cases h : (0.85 : ℚ) < dice (normName a.company_name) (normName b.company_name)
  · rw [if_pos h]
    simp [h]
  · rw [if_neg h, if_neg (fun hcc => hc hcc.2)]
    simp [h]

/-- Witness for C1: the amended theorem applied to the concrete record pair. -/
theorem c1_witness :
    sameEntity exC1a exC1b
      = decide ((0.85 : ℚ) < dice (normName exC1a.company_name) (normName exC1b.company_name)) :=
  c1_dice_threshold_strict exC1a exC1b (by decide) (by decide) (by decide)

/-! ## Claim C2 — merge on equal normalized phones -/

/-- C2 (amended): two records whose normalized phones are equal and consist
of a full 10 digits are resolved to one entity by `dedupe`, regardless of
names, websites or localities.  (The matcher additionally requires the
normalized phone to have length at least 10, so equal shorter phones do not
force a merge — see the counterexample.) -/
theorem c2_phone_merge (a b : Biz)
    (h1 : normPhone a.phone = normPhone b.phone)
    (h2 : 10 ≤ (normPhone a.phone).length) :
    (dedupe [a, b]).length = 1 := by
  have hne : normPhone a.phone ≠ "" := ten_le_length_ne_empty _ h2
  have hs : sameEntity { a with sources := [a.source] } b = true := by
    rw [sameEntity_sources]
    exact sameEntity_true_of_phone a b ⟨hne, h1 ▸ hne, h2, h1⟩
  rw [dedupe_pair_merged a b hs]
  rfl

/-- Witness for C2: two records agreeing only on a 10-digit phone merge. -/
theorem c2_witness : (dedupe [exC2c, exC2d]).length = 1 :=
  c2_phone_merge exC2c exC2d (by decide) (by decide)

/-- C2, counterexample: two records with equal non-empty normalized phones of
7 digits stay two separate entities — the claim requires them to resolve to
one entity for any equal non-empty normalized phone. -/
theorem c2_counterexample :
    normPhone exC2a.phone = normPhone exC2b.phone ∧
    normPhone exC2a.phone ≠ "" ∧
    (dedupe [exC2a, exC2b]).length = 2 := by
  refine ⟨by decide, by decide, ?_⟩
  have e1 : normName exC2a.company_name = "alphaone" := by decide
  have e2 : normName exC2b.company_name = "zzzqqq" := by decide
  have hd : dice (normName exC2a.company_name) (normName exC2b.company_name) = 0 := by
    rw [e1, e2,
      dice_eval _ _ 0 7 5 (by decide) (by decide) (by decide) (by decide) (by decide) (by decide)]
    norm_num
  have hs : sameEntity { exC2a with sources := [exC2a.source] } exC2b = false := by
    rw [sameEntity_sources]
    apply sameEntity_false_of
    · decide
    · decide
    · rw [hd]
      norm_num
    · rw [hd]
      rintro ⟨h7, -⟩
      norm_num at h7
  rw [dedupe_pair_split _ _ hs]
  rfl

/-! ## Claim C3 — dedup idempotence on a repeated record -/

/-- C3 (amended): feeding the same record twice through `dedupe` yields a
single entity provided the record carries at least one matching signal — a
non-empty normalized name, a non-empty normalized website domain, or a full
10-digit phone.  A record with empty name, phone and website does not match
itself (empty names never match by similarity) and yields two entities —
see the counterexample. -/
theorem c3_repeat_no_split (r : Biz)
    (h : normName r.company_name ≠ "" ∨ normDomain r.website ≠ "" ∨
         10 ≤ (normPhone r.phone).length) :
    (dedupe [r, r]).length = 1 := by
  have hs : sameEntity { r with sources := [r.source] } r = true := by
    rw [sameEntity_sources]
    rcases h with hn | hw | hp
    · apply sameEntity_true_of_name
      rw [dice_self _ hn]
      norm_num
    · exact sameEntity_true_of_domain r r ⟨hw, hw, rfl⟩
    · exact sameEntity_true_of_phone r r
        ⟨ten_le_length_ne_empty _ hp, ten_le_length_ne_empty _ hp, hp, rfl⟩
  rw [dedupe_pair_merged _ _ hs]
  rfl

/-- Witness for C3: a record with a non-empty name merges with itself. -/
theorem c3_witness : (dedupe [exC3named, exC3named]).length = 1 :=
  c3_repeat_no_split exC3named (Or.inl (by decide))

/-- C3, counterexample: a record with empty name, phone and website fed twice
through `dedupe` creates two entities — the claim asserts one entity for all
field contents including empty name, phone and website. -/
theorem c3_counterexample :
    exC3empty.company_name = "" ∧ exC3empty.phone = "" ∧ exC3empty.website = "" ∧
    (dedupe [exC3empty, exC3empty]).length = 2 := by
  refine ⟨rfl, rfl, rfl, ?_⟩
  have hn : normName exC3empty.company_name = "" := by decide
  have hs : sameEntity { exC3empty with sources := [exC3empty.source] } exC3empty = false := by
    rw [sameEntity_sources]
    apply sameEntity_false_of
    · decide
    · decide
    · rw [hn, dice_empty_left]
      norm_num
    · rw [hn, dice_empty_left]
      rintro ⟨h7, -⟩
      norm_num at h7
  rw [dedupe_pair_split _ _ hs]
  rfl

end Engine

namespace Engine

/-! ## Claim C4 — MX verification confidence transitions -/

/-- C4: the MX-verification step of `enrichBusiness` processes every contact
of the list (the output has one entry per contact, at the same position):
when the email's domain resolves to MX records, confidence `found` becomes
`verified`, `inferred` becomes `inferred_mx_ok`, and any other tag is kept;
when it does not, confidence becomes `inferred_no_mx` if it was `inferred`
and `no_mx` otherwise. -/
theorem c4_mx_transitions (mx : String → Bool) (cs : List Contact) (i : ℕ) (c : Contact)
    (h : cs[i]? = some c) :
    (mxStep mx cs).length = cs.length ∧
    (mxStep mx cs)[i]? = some { c with confidence := (
      if verifyEmailMx mx c.email then
        (if c.confidence = "found" then "verified"
         else if c.confidence = "inferred" then "inferred_mx_ok" else c.confidence)
      else (if c.confidence = "inferred" then "inferred_no_mx" else "no_mx")) } := by
  constructor
  · simp [mxStep]
  · simp [mxStep, List.getElem?_map, h, mxTransition]

/-- Witness for C4: a `found` contact on a domain with no MX records. -/
theorem c4_witness :
    (mxStep (fun _ => false) [johnC]).length = [johnC].length ∧
    (mxStep (fun _ => false) [johnC])[0]? = some { johnC with confidence := (
      if verifyEmailMx (fun _ => false) johnC.email then
        (if johnC.confidence = "found" then "verified"
         else if johnC.confidence = "inferred" then "inferred_mx_ok" else johnC.confidence)
      else (if johnC.confidence = "inferred" then "inferred_no_mx" else "no_mx")) } :=
  c4_mx_transitions (fun _ => false) [johnC] 0 johnC rfl

end Engine

namespace Engine

/-! ## Claim C5 — email-pattern inference -/

theorem maxCount_cons (pc : String × ℕ) (l : List (String × ℕ)) :
    maxCount (pc :: l) = max pc.2 (maxCount l) := by
  simp [maxCount]

theorem le_maxCount (l : List (String × ℕ)) : ∀ pc ∈ l, pc.2 ≤ maxCount l := by
  induction l with
  | nil => simp
  | cons qc rest ih =>
    intro pc hm
    rw [maxCount_cons]
    rcases List.mem_cons.1 hm with rfl | hmem
    · omega
    · have := ih pc hmem
      omega

theorem selectBest_snd (l : List (String × ℕ)) : ∀ (b0 : Option String) (n0 : ℕ),
    (List.foldl selUpd (b0, n0) l).2 = max n0 (maxCount l) := by
  induction l with
  | nil =>
    intro b0 n0
    simp [maxCount]
  | cons pc rest ih =>
    intro b0 n0
    rw [List.foldl_cons, maxCount_cons]
    by_cases h : n0 < pc.2
    · have hupd : selUpd (b0, n0) pc = (some pc.1, pc.2) := by simp [selUpd, h]
      rw [hupd, ih]
      omega
    · have hupd : selUpd (b0, n0) pc = (b0, n0) := by simp [selUpd, h]
      rw [hupd, ih]
      omega

theorem selectBest_frozen (l : List (String × ℕ)) : ∀ (b0 : Option String) (n0 : ℕ),
    (∀ pc ∈ l, pc.2 ≤ n0) → List.foldl selUpd (b0, n0) l = (b0, n0) := by
  induction l with
  | nil =>
    intro b0 n0 _
    rfl
  | cons pc rest ih =>
    intro b0 n0 h
    rw [List.foldl_cons]
    have hle := h pc (List.mem_cons_self pc rest)
    have hupd : selUpd (b0, n0) pc = (b0, n0) := by
      simp only [selUpd]
      rw [if_neg (by omega)]
    rw [hupd]
    exact ih b0 n0 (fun qc hq => h qc (List.mem_cons_of_mem pc hq))

theorem selectBest_fst (l : List (String × ℕ)) : ∀ (b0 : Option String) (n0 : ℕ),
    n0 < maxCount l →
    (List.foldl selUpd (b0, n0) l).1
      = (l.find? (fun pc => pc.2 = maxCount l)).map Prod.fst := by
  induction l with
  | nil =>
    intro b0 n0 h
    simp [maxCount] at h
  | cons pc rest ih =>
    intro b0 n0 h
    rw [maxCount_cons] at h
    rw [List.foldl_cons]
    by_cases hcase : n0 < pc.2
    · have hupd : selUpd (b0, n0) pc = (some pc.1, pc.2) := by simp [selUpd, hcase]
      rw [hupd]
      by_cases h2 : pc.2 < maxCount rest
      · have hM : maxCount (pc :: rest) = maxCount rest := by
          rw [maxCount_cons]
          omega
        rw [hM, List.find?_cons_of_neg _ (by simp; omega)]
        exact ih (some pc.1) pc.2 h2
      · have hM : maxCount (pc :: rest) = pc.2 := by
          rw [maxCount_cons]
          omega
        rw [hM, List.find?_cons_of_pos _ (by simp)]
        rw [selectBest_frozen rest (some pc.1) pc.2
          (fun qc hq => le_trans (le_maxCount rest qc hq) (by omega))]
        rfl
    · have hupd : selUpd (b0, n0) pc = (b0, n0) := by simp [selUpd, hcase]
      rw [hupd]
      have hM : maxCount (pc :: rest) = maxCount rest := by
        rw [maxCount_cons]
        omega
      rw [hM, List.find?_cons_of_neg _ (by simp; omega)]
      exact ih b0 n0 (by omega)

theorem detect_eq_firstMax (cs : List Contact) :
    detectEmailPattern cs
      = firstMaxPattern (patternOrder.map (fun p => (p, votes cs p))) := by
  unfold detectEmailPattern firstMaxPattern selectBest
  have hsnd := selectBest_snd (patternOrder.map (fun p => (p, votes cs p))) none 0
  by_cases hM : maxCount (patternOrder.map (fun p => (p, votes cs p))) = 0
  · rw [if_pos hM, if_neg (by rw [hsnd, hM]; omega)]
  · rw [if_neg hM, if_pos (by rw [hsnd]; omega)]
    exact selectBest_fst _ none 0 (by omega)

/-- C5: pattern detection over any contact set is exact-match voting — each
contact with an email and both names votes for the first candidate pattern
(in the enumeration order first, first.last, firstlast, flast, first_last,
firstl, last) whose rendering equals its email's local part, and the
detector returns the first pattern attaining the highest vote count when
that count is at least one, and `none` otherwise; on the concrete contacts
John Smith / john.smith@x.com and Jane Doe / jane.doe@x.com it returns
`first.last`; inference then synthesizes sarah.jones@x.com for the email-less
name Sarah Jones with confidence `inferred`, and skips the synthesis when
that address is already known. -/
theorem c5_pattern_inference :
    (∀ cs : List Contact,
      detectEmailPattern cs
        = firstMaxPattern (patternOrder.map (fun p => (p, votes cs p)))) ∧
    detectEmailPattern [johnC, janeC] = some "first.last" ∧
    inferContacts (some "first.last") [sarahP] "x.com"
        (["john.smith@x.com", "jane.doe@x.com"], [johnC, janeC])
      = (["john.smith@x.com", "jane.doe@x.com", "sarah.jones@x.com"],
         [johnC, janeC, sarahInferred]) ∧
    inferContacts (some "first.last") [sarahP] "x.com"
        (["sarah.jones@x.com"], []) = (["sarah.jones@x.com"], []) :=
  ⟨detect_eq_firstMax, by decide, by decide, by decide⟩

end Engine

namespace Engine

/-! ## Claim C6 — chunk output ordering -/

theorem mem_of_index {α : Type} : ∀ (l : List α) (i : ℕ) (a : α), l[i]? = some a → a ∈ l
  | x :: _, 0, _, h => by
    simp at h
    simp [h]
  | _ :: xs, i + 1, a, h => List.mem_cons_of_mem _ (mem_of_index xs i a (by simpa using h))

theorem no_cross {α : Type} (A B : List α) (p q : α → Prop)
    (hA : ∀ x ∈ A, ¬ q x) (hB : ∀ x ∈ B, ¬ p x) (i j : ℕ) (x y : α)
    (hi : (A ++ B)[i]? = some x) (hpx : p x)
    (hj : (A ++ B)[j]? = some y) (hqy : q y) : i < j := by
  have hiA : i < A.length := by
    by_contra hcon
    push_neg at hcon
    rw [List.getElem?_append_right hcon] at hi
    exact hB x (mem_of_index _ _ _ hi) hpx
  have hjB : A.length ≤ j := by
    by_contra hcon
    push_neg at hcon
    rw [List.getElem?_append, if_pos hcon] at hj
    exact hA y (mem_of_index _ _ _ hj) hqy
  omega

/-- C6: in the sink-event trace of one category chunk, every row push of a
no-website record comes strictly before every enrichment-derived row push,
for every chunk and enrichment function; in the concrete 3-plus-2 scenario
the sink receives exactly the three no-website rows (then a flush) before
the two enrichment-derived rows. -/
theorem c6_chunk_flush_order :
    (∀ (enrich : Biz → Biz) (chunk : List Biz) (i j : ℕ) (b c : Biz),
      (chunkTrace enrich chunk)[i]? = some (SinkEvent.pushRow b false) →
      (chunkTrace enrich chunk)[j]? = some (SinkEvent.pushRow c true) → i < j) ∧
    chunkTrace id [exW1, exN1, exN2, exW2, exN3]
      = [SinkEvent.pushRow exN1 false, SinkEvent.pushRow exN2 false,
         SinkEvent.pushRow exN3 false, SinkEvent.flushTabs,
         SinkEvent.pushRow exW1 true, SinkEvent.pushRow exW2 true,
         SinkEvent.flushTabs] := by
  constructor
  · intro enrich chunk i j b c hi hj
    simp only [chunkTrace] at hi hj
    rw [List.append_assoc] at hi hj
    refine no_cross _ _ (fun x => x = SinkEvent.pushRow b false)
      (fun x => x = SinkEvent.pushRow c true) ?_ ?_ i j _ _ hi rfl hj rfl
    · intro x hx heq
      subst heq
      rcases List.mem_append.1 hx with h1 | h1
      · obtain ⟨a, -, ha⟩ := List.mem_map.1 h1
        simp at ha
      · split at h1 <;> simp at h1
    · intro x hx heq
      subst heq
      rcases List.mem_append.1 hx with h1 | h1
      · obtain ⟨a, -, ha⟩ := List.mem_map.1 h1
        simp at ha
      · simp at h1
  · decide

end Engine

namespace Engine

/-! ## Claims C7 and C8 — scheduler dedup and checkpoint resume -/

theorem processRecords_eq (l : List Biz) : ∀ (biz : List Biz) (seen : List String),
    processRecords (biz, seen) l
      = (biz ++ firstByKey seen l, seen ++ (firstByKey seen l).map dedupKey) := by
  induction l with
  | nil =>
    intro biz seen
    simp [processRecords, firstByKey]
  | cons b rest ih =>
    intro biz seen
    simp only [processRecords, List.foldl_cons, firstByKey]
    by_cases h : dedupKey b ∈ seen
    · have hstep : acceptStep (biz, seen) b = (biz, seen) := by simp [acceptStep, h]
      rw [hstep, if_pos h]
      have := ih biz seen
      simp only [processRecords] at this
      exact this
    · have hstep : acceptStep (biz, seen) b = (biz ++ [b], seen ++ [dedupKey b]) := by
        simp [acceptStep, h]
      rw [hstep, if_neg h]
      have := ih (biz ++ [b]) (seen ++ [dedupKey b])
      simp only [processRecords] at this
      rw [this]
      simp

theorem firstByKey_not_seen (l : List Biz) : ∀ (seen : List String) (b : Biz),
    b ∈ firstByKey seen l → dedupKey b ∉ seen := by
  induction l with
  | nil =>
    intro seen b h
    simp [firstByKey] at h
  | cons a rest ih =>
    intro seen b h
    simp only [firstByKey] at h
    by_cases ha : dedupKey a ∈ seen
    · rw [if_pos ha] at h
      exact ih seen b h
    · rw [if_neg ha] at h
      rcases List.mem_cons.1 h with rfl | hmem
      · exact ha
      · intro hc
        exact ih (seen ++ [dedupKey a]) b hmem (List.mem_append_left _ hc)

/-- C7 (amended): a candidate record that passes the Scheduler's global
dedup key is appended to the entity list directly — the accept loop performs
no similarity-based resolution against the existing entities (the full
matcher `dedupe`/`sameEntity` is defined but not invoked by the
orchestrator), so the accepted entity list is exactly the input stream
keeping the first record of each dedup key. -/
theorem c7_accept_is_key_filter :
    (∀ l : List Biz,
      processRecords ([], []) l = (firstByKey [] l, (firstByKey [] l).map dedupKey)) ∧
    (∀ (st : List Biz × List String) (b : Biz), dedupKey b ∉ st.2 →
      acceptStep st b = (st.1 ++ [b], st.2 ++ [dedupKey b])) := by
  constructor
  · intro l
    simpa using processRecords_eq l [] []
  · intro st b h
    simp [acceptStep, h]

/-- Witness for C7: accepting a fresh record appends it unchanged. -/
theorem c7_witness : acceptStep ([], []) exC7a = ([exC7a], [dedupKey exC7a]) :=
  c7_accept_is_key_filter.2 ([], []) exC7a (by simp)

/-- C7, counterexample: two records with different dedup keys but the same
full 10-digit phone — `sameEntity` would merge them — are both accepted and
remain two separate entities, while the claim says they still end up as one
entity. -/
theorem c7_counterexample :
    dedupKey exC7a ≠ dedupKey exC7b ∧
    sameEntity exC7a exC7b = true ∧
    (processRecords ([], []) [exC7a, exC7b]).1 = [exC7a, exC7b] := by
  refine ⟨by decide, ?_, by decide⟩
  exact sameEntity_true_of_phone exC7a exC7b ⟨by decide, by decide, by decide, by decide⟩

/-- C8: after a resume, the global dedup seen-set is rebuilt as one
`dedupKey` per checkpointed entity, and replaying any record stream forward
appends only records whose key is fresh: a record whose dedup key was
already merged before the checkpoint was written is never re-accepted. -/
theorem c8_resume_no_readmission (saved l : List Biz) (r : Biz)
    (h : dedupKey r ∈ resumeSeen saved) :
    (processRecords (saved, resumeSeen saved) l).1
        = saved ++ firstByKey (resumeSeen saved) l ∧
    r ∉ firstByKey (resumeSeen saved) l := by
  constructor
  · rw [processRecords_eq l saved (resumeSeen saved)]
  · intro hmem
    exact firstByKey_not_seen l (resumeSeen saved) r hmem h

/-- Witness for C8: replaying a checkpointed record is not re-accepted. -/
theorem c8_witness :
    (processRecords ([exC7a], resumeSeen [exC7a]) [exC7a]).1
        = [exC7a] ++ firstByKey (resumeSeen [exC7a]) [exC7a] ∧
    exC7a ∉ firstByKey (resumeSeen [exC7a]) [exC7a] :=
  c8_resume_no_readmission [exC7a] [exC7a] exC7a (by decide)

end Engine

namespace Engine

/-! ## Claim C9 — circuit breaker -/

theorem yelpRun_tripped (os : List YelpFetch) : ∀ fails : ℕ, 5 ≤ fails →
    yelpRun fails os = os.map (fun _ => (false, 0)) := by
  induction os with
  | nil =>
    intro fails _
    rfl
  | cons o rest ih =>
    intro fails h
    have hstep : yelpSingle fails o = (fails, false, 0) := by simp [yelpSingle, h]
    simp [yelpRun, hstep, ih fails h]

/-- C9 (amended): only the Yelp source carries a consecutive-failure
breaker — once the counter reaches 5, every subsequent Yelp work unit of the
run is skipped with no network call (and, the skipped calls never reaching
the network, the counter never resets once tripped); before tripping, a
fetch that parses at least one business resets the counter to zero, while a
blocked page, a challenge page, or a page parsing to zero businesses counts
as a failure; the other sources (such as BBB) keep no failure state and hit
the network on every work unit. -/
theorem c9_circuit_breaker_yelp_only :
    (∀ (fails : ℕ) (os : List YelpFetch), 5 ≤ fails →
      yelpRun fails os = os.map (fun _ => (false, 0))) ∧
    (∀ (fails n : ℕ), fails < 5 → 0 < n →
      yelpSingle fails (YelpFetch.results n) = (0, true, n)) ∧
    yelpRun 0 [YelpFetch.blockedShort, YelpFetch.jsChallenge, YelpFetch.blockedShort,
               YelpFetch.results 0, YelpFetch.blockedShort, YelpFetch.results 3]
      = [(true, 0), (true, 0), (true, 0), (true, 0), (true, 0), (false, 0)] ∧
    (∀ o : BBBFetch, (bbbSingle o).1 = true) := by
  refine ⟨fun fails os h => yelpRun_tripped os fails h, ?_, by decide, fun o => rfl⟩
  intro fails n h1 h2
  have hn : ¬ 5 ≤ fails := by omega
  simp [yelpSingle, hn, h2]

/-- Witness for C9: a successful parse at zero failures keeps the counter
at zero. -/
theorem c9_witness : yelpSingle 0 (YelpFetch.results 3) = (0, true, 3) :=
  c9_circuit_breaker_yelp_only.2.1 0 3 (by decide) (by decide)

/-- C9, counterexample: on the BBB source, after 5 consecutive failed calls
the 6th work unit still performs a network call (first component `true`) and
is not marked skipped — the claim asserts this for every discovery source. -/
theorem c9_counterexample :
    bbbRun [BBBFetch.failed, BBBFetch.failed, BBBFetch.failed, BBBFetch.failed,
            BBBFetch.failed, BBBFetch.failed]
      = [(true, 0), (true, 0), (true, 0), (true, 0), (true, 0), (true, 0)] := by
  decide

end Engine

namespace Engine

/-! ## Claim C10 — distinct contact emails after enrichment -/

theorem append_good (st : CState) (c : Contact) (hnot : c.email ∉ st.1)
    (h : goodState st) : goodState (st.1 ++ [c.email], st.2 ++ [c]) := by
  obtain ⟨hnd, hsub⟩ := h
  constructor
  · have hnotin : c.email ∉ st.2.map Contact.email := by
      intro hin
      obtain ⟨c', hc', he⟩ := List.mem_map.1 hin
      exact hnot (he ▸ hsub c' hc')
    simp [List.nodup_append, hnd, hnotin]
  · intro c' hc'
    rcases List.mem_append.1 hc' with h1 | h1
    · exact List.mem_append_left _ (hsub c' h1)
    · simp only [List.mem_singleton] at h1
      subst h1
      exact List.mem_append_right _ (List.mem_singleton.2 rfl)

theorem addKeyed_good (st : CState) (key : String) (c : Contact)
    (hkey : c.email = key) (h : goodState st) : goodState (addKeyed st key c) := by
  unfold addKeyed
  by_cases hmem : key ∈ st.1
  · rw [if_pos hmem]
    exact h
  · rw [if_neg hmem]
    subst hkey
    exact append_good st c hmem h

theorem addPage_good (cs : List Contact) : ∀ st : CState,
    goodState st → goodState (addPage st cs) := by
  induction cs with
  | nil =>
    intro st h
    exact h
  | cons c rest ih =>
    intro st h
    rw [show addPage st (c :: rest) = addPage (addKeyed st c.email c) rest from rfl]
    exact ih _ (addKeyed_good st c.email c rfl h)

theorem subLoop_good (pages : List (Option PageExtract)) : ∀ (st : CState)
    (names : List Person), goodState st → goodState (subLoop pages st names).1 := by
  induction pages with
  | nil =>
    intro st names h
    exact h
  | cons p rest ih =>
    intro st names h
    cases p with
    | none => exact ih st names h
    | some pr =>
      simp only [subLoop]
      by_cases hb : 5 ≤ ((addPage st pr.contacts).2.filter
          (fun c => c.first_name ≠ "")).length
      · rw [if_pos hb]
        exact addPage_good pr.contacts st h
      · rw [if_neg hb]
        exact ih _ _ (addPage_good pr.contacts st h)

theorem whoisAdd_good (reg? : Option Registrant) (st : CState)
    (h : goodState st) : goodState (whoisAdd reg? st) := by
  cases reg? with
  | none => exact h
  | some reg =>
    simp only [whoisAdd]
    by_cases hc : reg.email ≠ "" ∧ validEmail reg.email = true ∧ lowerStr reg.email ∉ st.1
    · rw [if_pos hc]
      exact append_good st
        { email := lowerStr reg.email, first_name := firstNameStr reg.name,
          last_name := lastNameStr reg.name, title := "Owner (WHOIS)",
          phone := reg.phone, confidence := "whois", source_page := "WHOIS/RDAP" }
        hc.2.2 h
    · rw [if_neg hc]
      exact h

theorem inferFold_good (ns : List Person) (pat domain : String) : ∀ st : CState,
    goodState st →
    goodState (ns.foldl (fun st person =>
      match generateEmail pat person.first_name person.last_name domain with
      | none => st
      | some e =>
        addKeyed st e { email := e, first_name := person.first_name,
                        last_name := person.last_name, title := person.title,
                        phone := person.phone, confidence := "inferred",
                        source_page := person.source_page }) st) := by
  induction ns with
  | nil =>
    intro st h
    exact h
  | cons person rest ih =>
    intro st h
    rw [List.foldl_cons]
    cases hg : generateEmail pat person.first_name person.last_name domain with
    | none =>
      simp only [hg]
      exact ih st h
    | some e =>
      simp only [hg]
      exact ih _ (addKeyed_good st e _ rfl h)

theorem inferContacts_good (pat? : Option String) (names : List Person)
    (domain : String) (st : CState) (h : goodState st) :
    goodState (inferContacts pat? names domain st) := by
  cases pat? with
  | none => exact h
  | some pat =>
    simp only [inferContacts]
    by_cases hlen : names.length ≠ 0
    · rw [if_pos hlen]
      exact inferFold_good names pat domain st h
    · rw [if_neg hlen]
      exact h

theorem mxStep_emails (mx : String → Bool) (cs : List Contact) :
    (mxStep mx cs).map Contact.email = cs.map Contact.email := by
  simp only [mxStep, List.map_map]
  rfl

/-- C10: for every homepage extraction, subpage extraction sequence, WHOIS
result, domain and MX oracle, the contact list produced by the enrichment
pipeline carries pairwise-distinct email addresses — every insertion path is
guarded by the one shared seen-email set. -/
theorem c10_contact_emails_distinct (home : PageExtract)
    (subs : List (Option PageExtract)) (reg? : Option Registrant)
    (domain : String) (mx : String → Bool) :
    ((enrichContacts home subs reg? domain mx).map Contact.email).Nodup := by
  unfold enrichContacts
  rw [mxStep_emails]
  have h0 : goodState ([], []) := by
    constructor
    · simp
    · intro c hc
      simp at hc
  have h1 := addPage_good home.contacts ([], []) h0
  have h2 := subLoop_good subs _ home.namesNoEmail h1
  have h3 := whoisAdd_good reg? _ h2
  have h4 := inferContacts_good (detectEmailPattern (whoisAdd reg?
    (subLoop subs (addPage ([], []) home.contacts) home.namesNoEmail).1).2)
    (subLoop subs (addPage ([], []) home.contacts) home.namesNoEmail).2 domain _ h3
  exact h4.1

end Engine

namespace Engine

/-- Witness for C6: in the concrete 3-plus-2 chunk, the first no-website row
(index 0) precedes the first enrichment-derived row (index 4). -/
theorem c6_witness : 0 < 4 :=
  c6_chunk_flush_order.1 id [exW1, exN1, exN2, exW2, exN3] 0 4 exN1 exW1
    (by decide) (by decide)

end Engine
